import Mathlib

/-!
Verification of the Nihil CLI layer (shallow embedding of the Python sources
under src/nihil/).  Pure data and string handling are translated directly;
the Docker engine is modelled as an oracle (`Engine`) recording, for each
container or image, the outcome of every external call the code can make.
Exceptions become `Except` values: a Python `raise` is `.error`, a `try`
block is a `match` on the call's result.
-/

namespace Nihil

/-- Python's substring test `pat in s` (used as `"nihil" in tag`). -/
def strContains (s pat : String) : Bool :=
  decide (List.IsInfix pat.data s.data)

/-! ## Error taxonomy — src/nihil/nihilError.py -/

/-- `NihilError` dataclass: message, exit_code (default 1), optional hint. -/
structure NihilError where
  message : String
  exit_code : Int
  hint : Option String
deriving DecidableEq

/-- `NihilError.__str__`: message, plus the hint on a second line when present. -/
def NihilError.str (e : NihilError) : String :=
  match e.hint with
  | some h => e.message ++ "\nHint: " ++ h
  | none => e.message

/-- `DockerUnavailable(message, hint)`: exit code 2, default hint text. -/
def DockerUnavailable (message : String) (hint : Option String) : NihilError :=
  { message := message
    exit_code := 2
    hint := some (hint.getD
      "Vérifie que Docker tourne et que ton utilisateur a accès au socket Docker.") }

/-- `ImageNotFound(image, message, hint)`: exit code 3. -/
def ImageNotFound (image : String) (message : Option String) (hint : Option String) :
    NihilError :=
  { message := message.getD ("Image introuvable: " ++ "'" ++ image ++ "'")
    exit_code := 3
    hint := some (hint.getD "Essaie `nihil info` ou vérifie ta connexion au registry.") }

/-- `ImagePullFailed(image, message, hint)`: exit code 3. -/
def ImagePullFailed (image : String) (message : Option String) (hint : Option String) :
    NihilError :=
  { message := message.getD ("Impossible de pull l'image: " ++ "'" ++ image ++ "'")
    exit_code := 3
    hint := some (hint.getD "Vérifie l'accès au registry (auth, réseau) et le nom d'image.") }

/-- `ContainerNotFound(name, message)`: exit code 4, no hint. -/
def ContainerNotFound (name : String) (message : Option String) : NihilError :=
  { message := message.getD ("Conteneur introuvable: " ++ "'" ++ name ++ "'")
    exit_code := 4
    hint := none }

/-- `ContainerNotRunning(name, message)`: exit code 5, no hint. -/
def ContainerNotRunning (name : String) (message : Option String) : NihilError :=
  { message := message.getD
      ("Le conteneur " ++ "'" ++ name ++ "'" ++ " n'est pas en cours d'exécution.")
    exit_code := 5
    hint := none }

/-- `ContainerCreateFailed(name, message, hint)`: exit code 6, hint passed through. -/
def ContainerCreateFailed (name : String) (message : Option String) (hint : Option String) :
    NihilError :=
  { message := message.getD ("Échec de création du conteneur: " ++ "'" ++ name ++ "'")
    exit_code := 6
    hint := hint }

/-- `ContainerStartFailed(name, message)`: exit code 7, no hint. -/
def ContainerStartFailed (name : String) (message : Option String) : NihilError :=
  { message := message.getD ("Échec du démarrage du conteneur: " ++ "'" ++ name ++ "'")
    exit_code := 7
    hint := none }

/-- `ContainerStopFailed(name, message)`: exit code 8, no hint. -/
def ContainerStopFailed (name : String) (message : Option String) : NihilError :=
  { message := message.getD ("Échec de l'arrêt du conteneur: " ++ "'" ++ name ++ "'")
    exit_code := 8
    hint := none }

/-- `ContainerRemoveFailed(name, message)`: exit code 9, no hint. -/
def ContainerRemoveFailed (name : String) (message : Option String) : NihilError :=
  { message := message.getD ("Échec de suppression du conteneur: " ++ "'" ++ name ++ "'")
    exit_code := 9
    hint := none }

/-- Modelled from the spec: the repository's tests (src/tests/test_nihilError.py)
refer to `ImageRemoveFailed` in nihil.nihilError and assert `exit_code == 10`, and
the uninstall flow reaches it through `NihilManager.remove_image`, but the class
definition itself is absent from src/nihil/nihilError.py.  Per the spec's taxonomy,
image-remove-failed carries the stable exit code 10. -/
def ImageRemoveFailed (image : String) (message : Option String) : NihilError :=
  { message := message.getD ("Échec de suppression de l'image: " ++ "'" ++ image ++ "'")
    exit_code := 10
    hint := none }

/-! ## Top-level exception handling — src/nihil/nihilController.py `main` -/

/-- How one invocation of `NihilController.run` terminates, as `main` sees it:
a returned exit code, a `KeyboardInterrupt`, a raised `NihilError`, or any other
exception. -/
inductive Failure where
  | nihil (e : NihilError)
  | interrupt
  | other (msg : String)
deriving DecidableEq

/-- `main`'s try/except ladder (src/nihil/nihilController.py lines 609-622):
`KeyboardInterrupt` → 130, `NihilError e` → `e.exit_code`, any other exception → 1. -/
def mainExit : Except Failure Int → Int
  | .ok code => code
  | .error (.nihil e) => e.exit_code
  | .error .interrupt => 130
  | .error (.other _) => 1

/-! ## Formatter — src/nihil/nihilFormatter.py (the string-building part) -/

/-- ANSI codes used by `NihilFormatter`. -/
def ansiRED : String := "\x1b[1;31m"

def ansiRESET : String := "\x1b[0m"

/-- `NihilFormatter(use_colors)`. -/
structure NihilFormatter where
  use_colors : Bool
deriving DecidableEq

/-- `NihilFormatter._colorize`. -/
def NihilFormatter.colorize (f : NihilFormatter) (text color : String) : String :=
  if f.use_colors then color ++ text ++ ansiRESET else text

/-- `NihilFormatter.error`: red `[✗] message`. -/
def NihilFormatter.errorMsg (f : NihilFormatter) (message : String) : String :=
  f.colorize ("[✗] " ++ message) ansiRED

/-- The controller's formatter, `NihilFormatter()` with colors on. -/
def defaultFormatter : NihilFormatter := ⟨true⟩

/-! ## The Docker engine as an oracle

The CLI performs external calls through docker-py.  Each call's outcome is
read off an `Engine` value: the containers and images the daemon holds, and
for each fallible call the `APIError` message it would raise (keyed by
container name or image reference), or `none` when the call succeeds. -/

/-- An engine-side image: id, tag list, size in bytes (`attrs['Size']`). -/
structure Image where
  id : String
  tags : List String
  size : Nat
deriving DecidableEq

/-- An engine-side container, with the attributes the CLI consumes:
`name`, `status`, `image.tags`, `image.id`, `attrs['Config']['Image']`,
`attrs['HostConfig']['Privileged']`.  `imageBroken` marks a container whose
`.image` attribute raises when accessed (its image was deleted). -/
structure Container where
  name : String
  status : String
  imageTags : List String
  imageId : String
  configImage : String
  privileged : Bool
  imageBroken : Bool
deriving DecidableEq

/-- The engine oracle: current state plus the outcome of each external call. -/
structure Engine where
  containers : List Container
  images : List Image
  /-- `docker.from_env()` / `ping()` raises `DockerException` with this message. -/
  pingError : Option String
  /-- `client.images.get(ref)` raises a `DockerException` other than
  `ImageNotFound`, keyed by reference. -/
  imageInspectErrors : List (String × String)
  /-- `client.images.pull(ref)` raises `APIError`, keyed by reference. -/
  pullErrors : List (String × String)
  /-- `container.start()` raises `APIError`, keyed by container name. -/
  startErrors : List (String × String)
  /-- `container.stop()` raises `APIError`, keyed by container name. -/
  stopErrors : List (String × String)
  /-- `container.remove(...)` raises `APIError`, keyed by container name. -/
  removeErrors : List (String × String)
  /-- `client.images.remove(...)` raises `APIError`, keyed by reference. -/
  imageRemoveErrors : List (String × String)
  /-- `client.containers.list(...)` raises `APIError` with this message. -/
  listContainersError : Option String
  /-- `client.images.list()` raises `APIError` with this message. -/
  listImagesError : Option String
deriving DecidableEq

/-! ## Engine client — src/nihil/nihilManager.py -/

/-- `NihilManager.DEFAULT_IMAGE`. -/
def DEFAULT_IMAGE : String := "ghcr.io/thenullpigeons/nihil-images:latest"

/-- `NihilManager.__init__`: `docker.from_env()` + `ping()`, raising
`DockerUnavailable` on any `DockerException`. -/
def managerInit (e : Engine) : Except NihilError Unit :=
  match e.pingError with
  | some m => .error (DockerUnavailable ("Impossible de se connecter à Docker: " ++ m) none)
  | none => .ok ()

/-- Outcome of `client.images.get(ref)`. -/
inductive ImageGet where
  | found (i : Image)
  | notFound
  | apiError (msg : String)
deriving DecidableEq

/-- `client.images.get(ref)`: the image whose tag list or id matches `ref`,
`ImageNotFound` when none does, or the configured `DockerException`. -/
def images_get (e : Engine) (ref : String) : ImageGet :=
  match (e.imageInspectErrors.lookup ref : Option String) with
  | some m => .apiError m
  | none =>
    match e.images.find? (fun i => i.tags.contains ref || i.id == ref) with
    | some i => .found i
    | none => .notFound

/-- `NihilManager.ensure_image_exists`: local presence check, pull when absent,
`ImagePullFailed` when the pull's `APIError` fires.  The `try` catches only
`ImageNotFound`: a different `DockerException` from `images.get` propagates raw,
rendered here as a generic exception message. -/
def ensure_image_exists (e : Engine) (image : String) : Except (NihilError ⊕ String) Bool :=
  match images_get e image with
  | .found _ => .ok true
  | .apiError m => .error (.inr m)
  | .notFound =>
    match (e.pullErrors.lookup image : Option String) with
    | some m =>
      .error (.inl (ImagePullFailed image
        (some ("Échec du pull de l'image: " ++ "'" ++ image ++ "'" ++ ": " ++ m)) none))
    | none => .ok true

/-- `NihilManager.get_container`: the container by name, `None` when absent. -/
def get_container (e : Engine) (name : String) : Option Container :=
  e.containers.find? (fun c => c.name == name)

/-- `NihilManager.start_container`: single `container.start()` call,
`ContainerStartFailed` on `APIError`. -/
def start_container (e : Engine) (c : Container) : Except NihilError Bool :=
  match (e.startErrors.lookup c.name : Option String) with
  | some m => .error (ContainerStartFailed c.name (some ("Erreur start: " ++ m)))
  | none => .ok true

/-- `NihilManager.stop_container`: single `container.stop()` call,
`ContainerStopFailed` on `APIError`. -/
def stop_container (e : Engine) (c : Container) : Except NihilError Bool :=
  match (e.stopErrors.lookup c.name : Option String) with
  | some m => .error (ContainerStopFailed c.name (some ("Erreur stop: " ++ m)))
  | none => .ok true

/-- `NihilManager.remove_container`: single `container.remove(force=force)` call,
`ContainerRemoveFailed` on `APIError`. -/
def remove_container (e : Engine) (c : Container) (_force : Bool) : Except NihilError Bool :=
  match (e.removeErrors.lookup c.name : Option String) with
  | some m => .error (ContainerRemoveFailed c.name (some ("Erreur remove: " ++ m)))
  | none => .ok true

/-- Modelled from the spec: `NihilManager.remove_image` is called by the
controller (src/nihil/nihilController.py line 459) but its definition is absent
from src/nihil/nihilManager.py.  Per the spec, image removal is a single
synchronous engine call that fails with the image-remove-failed kind. -/
def remove_image (e : Engine) (image : String) (_force : Bool) : Except NihilError Bool :=
  match (e.imageRemoveErrors.lookup image : Option String) with
  | some m => .error (ImageRemoveFailed image (some m))
  | none => .ok true

/-- The engine state after a successful `container.stop()`: that container's
status becomes `exited`. -/
def stopUpdate (e : Engine) (name : String) : Engine :=
  { e with containers := e.containers.map fun c =>
      if c.name == name then { c with status := "exited" } else c }

/-- The engine state after a successful `container.remove(...)`: the container
is gone. -/
def removeUpdate (e : Engine) (name : String) : Engine :=
  { e with containers := e.containers.filter fun c => c.name != name }

/-- `NihilManager.list_containers`: list from the engine (all, or running only),
keep only containers whose image tags exist and one of them contains "nihil",
skipping containers whose image raises; on `APIError` print to stderr and
return the empty list.  Returns (result, stderr lines). -/
def list_containers (e : Engine) (all : Bool) : List Container × List String :=
  match e.listContainersError with
  | some m => ([], ["Error retrieving containers: " ++ m])
  | none =>
    let scope := if all then e.containers else e.containers.filter (fun c => c.status == "running")
    (scope.filter (fun c =>
      !c.imageBroken && !c.imageTags.isEmpty
        && c.imageTags.any (fun tag => strContains tag "nihil")), [])

/-- `NihilManager.list_images`: keep only images with a tag containing "nihil";
on `APIError` print to stderr and return the empty list. -/
def list_images (e : Engine) : List Image × List String :=
  match e.listImagesError with
  | some m => ([], ["Error retrieving images: " ++ m])
  | none =>
    (e.images.filter (fun i =>
      !i.tags.isEmpty && i.tags.any (fun tag => strContains tag "nihil")), [])

/-! ## Controller command handlers — src/nihil/nihilController.py

Handlers are embedded as functions of the engine oracle; alongside the result
each emits the trace of manager/engine calls it performs, so ordering claims
(stop-before-remove) can be stated on the trace. -/

/-- One manager/engine call as the controller performs it. -/
inductive CallEv where
  | getC (name : String) (observed : Option String)
  | stopC (name : String)
  | removeC (name : String) (force : Bool)
  | removeImg (image : String)
deriving DecidableEq

/-- `NihilController._cmd_exec` (lines 280-295): missing container or
non-running container → formatted error on stderr and return 1; otherwise run
the interactive exec and return 0.  Returns (stderr lines, exit code). -/
def cmdExec (e : Engine) (name : String) (command : List String) : List String × Int :=
  match get_container e name with
  | none =>
    ([defaultFormatter.errorMsg ("Container " ++ "'" ++ name ++ "'" ++ " doesn't exist.")], 1)
  | some c =>
    if c.status != "running" then
      ([defaultFormatter.errorMsg ("Container " ++ "'" ++ name ++ "'" ++ " is not running.")], 1)
    else
      let _cmd := if command.isEmpty then "zsh" else String.intercalate " " command
      ([], 0)

/-- The loop of `NihilController._cmd_remove` (lines 262-278) over explicit
target names: a missing target is counted and skipped; an existing target is
stopped first when its observed status is "running", then removed; an
`APIError` from stop or remove raises the typed `NihilError`, which propagates
out of the handler.  Returns (call trace, outcome). -/
def cmdRemoveLoop (e : Engine) (force : Bool) :
    List String → Nat → List CallEv × Except NihilError Int
  | [], errors => ([], .ok (if errors > 0 then 1 else 0))
  | n :: rest, errors =>
    match get_container e n with
    | none =>
      let p := cmdRemoveLoop e force rest (errors + 1)
      (CallEv.getC n none :: p.1, p.2)
    | some c =>
      if c.status == "running" then
        match stop_container e c with
        | .error err => ([CallEv.getC n (some c.status), CallEv.stopC n], .error err)
        | .ok _ =>
          match remove_container (stopUpdate e n) c force with
          | .error err =>
            ([CallEv.getC n (some c.status), CallEv.stopC n, CallEv.removeC n force],
              .error err)
          | .ok _ =>
            let p := cmdRemoveLoop (removeUpdate (stopUpdate e n) n) force rest errors
            (CallEv.getC n (some c.status) :: CallEv.stopC n :: CallEv.removeC n force :: p.1,
              p.2)
      else
        match remove_container e c force with
        | .error err => ([CallEv.getC n (some c.status), CallEv.removeC n force], .error err)
        | .ok _ =>
          let p := cmdRemoveLoop (removeUpdate e n) force rest errors
          (CallEv.getC n (some c.status) :: CallEv.removeC n force :: p.1, p.2)

/-- `NihilController._cmd_remove` with explicit names (`errors = 0` at entry). -/
def cmdRemove (e : Engine) (force : Bool) (names : List String) :
    List CallEv × Except NihilError Int :=
  cmdRemoveLoop e force names 0

/-- `NihilController._cmd_info` (lines 482-559): renders variants, images and
containers and always returns 0; the listing calls are the only engine calls. -/
def cmdInfo (e : Engine) : Int :=
  let _images := (list_images e).1
  let _containers := (list_containers e true).1
  0

/-! ## Command history — src/nihil/nihilHistory.py -/

/-- The line `log_command` builds: `"nihil " + " ".join(argv)`. -/
def nihilLine (argv : List String) : String :=
  "nihil " ++ String.intercalate " " argv

/-- Outcome of the filesystem side of one history write (mkdir / open / append). -/
inductive FsResult where
  | ok
  | ioError (msg : String)
deriving DecidableEq

/-- The write `log_command` attempts inside its `try`: append one line to the
history file, or raise the filesystem's error. -/
def writeHistory (fs : FsResult) (line : String) (log : List String) :
    Except String (List String) :=
  match fs with
  | .ok => .ok (log ++ [line])
  | .ioError m => .error m

/-- `log_command(argv, exit_code)`: builds `nihil <space-joined argv>`, appends
it, and swallows any exception (`except Exception: return`).  The `exit_code`
parameter is received but not part of the written line.  The log is the list of
lines of the history file. -/
def log_command (argv : List String) (exit_code : Int) (fs : FsResult)
    (log : List String) : List String :=
  let _ := exit_code
  match writeHistory fs (nihilLine argv) log with
  | .ok newLog => newLog
  | .error _ => log

/-- `main` (lines 604-629): compute the exit code from how `controller.run`
ended, then`log_command(argv, exit_code)` inside a `try/except Exception: pass`.
Returns (exit code, history log after the invocation). -/
def mainInvocation (outcome : Except Failure Int) (argv : List String) (fs : FsResult)
    (log : List String) : Int × List String :=
  let exit_code := mainExit outcome
  (exit_code, log_command argv exit_code fs log)

/-- A sequence of invocations as `main` sees them: for each, the raw argv, how
the run ended, and the filesystem's behaviour for that history write. -/
def runSession (invs : List (List String × Except Failure Int × FsResult))
    (log : List String) : List String :=
  invs.foldl (fun acc inv => (mainInvocation inv.2.1 inv.1 inv.2.2 acc).2) log

/-! ## Diagnostics — src/nihil/nihilDoctor.py -/

/-- `DoctorCheckResult` dataclass. -/
structure DoctorCheckResult where
  name : String
  ok : Bool
  details : Option String
deriving DecidableEq

/-- The local-runtime facts `_check_runtime` reads (Python version, platform,
SDK version, `DOCKER_HOST`). -/
structure RuntimeInfo where
  pythonAtLeast312 : Bool
  pythonVersion : String
  osInfo : String
  sdkVersion : String
  dockerHostEnv : Option String
deriving DecidableEq

/-- `NihilDoctor._check_runtime`: four informational checks; only the Python
version one can be not-ok. -/
def checkRuntime (r : RuntimeInfo) : List DoctorCheckResult :=
  [ ⟨"Python >= 3.12", r.pythonAtLeast312, some ("Python détecté: " ++ r.pythonVersion)⟩,
    ⟨"OS détecté", true, some r.osInfo⟩,
    ⟨"Docker SDK présent", true, some ("docker==" ++ r.sdkVersion)⟩,
    ⟨"DOCKER_HOST", true, some (r.dockerHostEnv.getD "<non défini>")⟩ ]

/-- `NihilDoctor._check_image`: inspect the default image; present → ok; absent
→ pull through `ensure_image_exists`, recording ok or the caught failure; a
different `DockerException` from the inspection → not-ok check, returned softly. -/
def checkImage (e : Engine) : List DoctorCheckResult :=
  let image := DEFAULT_IMAGE
  match images_get e image with
  | .found _ => [⟨"Image par défaut disponible (" ++ image ++ ")", true, none⟩]
  | .apiError m => [⟨"Inspection image (" ++ image ++ ")", false, some m⟩]
  | .notFound =>
    match ensure_image_exists e image with
    | .ok _ =>
      [⟨"Image par défaut disponible (" ++ image ++ ")", true,
        some "Image absente localement → pull OK"⟩]
    | .error (.inl err) =>
      [⟨"Image par défaut disponible (" ++ image ++ ")", false, some err.str⟩]
    | .error (.inr _) =>
      -- unreachable under a deterministic oracle: the inspection above
      -- already took the `apiError` branch
      []

/-- `NihilDoctor.run` (lines 33-63): runtime checks always run; the Docker
block may fail hard, in which case the caught `NihilError`'s exit code is
kept and returned; otherwise the return value is 0 whatever the individual
check results.  Returns (printed check results, exit code). -/
def doctorRun (r : RuntimeInfo) (e : Engine) : List DoctorCheckResult × Int :=
  let rs := checkRuntime r
  match managerInit e with
  | .error err =>
    (rs ++ [⟨"Docker daemon accessible", false, some err.str⟩], err.exit_code)
  | .ok _ =>
    (rs ++ [⟨"Docker daemon accessible", true, none⟩] ++ checkImage e, 0)

/-! ## Uninstall flow — `NihilController._cmd_uninstall`, lines 399-465

Embedded from the point where the target list is resolved (`images =
resolved_images`): the scan for containers using the images, the two
interactive prompts, the container-removal loop, and the final image-removal
loop. -/

/-- The inner scan of `_cmd_uninstall` (lines 404-407): walk all containers,
collecting names of those whose `image.id` matches; accessing a broken
`.image` raises, aborting the rest of this scan (the exception is swallowed
by the surrounding `except`). -/
def collectUsing (img : Image) : List Container → List String
  | [] => []
  | c :: rest =>
    if c.imageBroken then []
    else (if c.imageId == img.id then [c.name] else []) ++ collectUsing img rest

/-- Lines 400-409: for each target image, find the containers using it; any
exception (image absent, listing failure) is swallowed for that image. -/
def containersToRemove (e : Engine) (images : List String) : List String :=
  images.foldl (fun acc image =>
    match images_get e image with
    | .found img =>
      match e.listContainersError with
      | some _ => acc
      | none => acc ++ collectUsing img e.containers
    | .notFound => acc
    | .apiError _ => acc) []

/-- What one `input(...)` call yields: an answer line, end-of-input
(`EOFError`), or a `KeyboardInterrupt`. -/
inductive Prompt where
  | answer (s : String)
  | endOfInput
  | interrupt
deriving DecidableEq

/-- `input()` wrapped in `except EOFError: ... = 'n'` (lines 419-422 and
446-449): end-of-input defaults the answer to "n"; a `KeyboardInterrupt` is
not caught there and propagates. -/
def promptDefaultNo : Prompt → Except Failure String
  | .answer s => .ok s
  | .endOfInput => .ok "n"
  | .interrupt => .error .interrupt

/-- Python's `s.lower()`: per-character lowercasing (ASCII range, which is all
the prompt comparisons use). -/
def pyLower (s : String) : String :=
  ⟨s.data.map Char.toLower⟩

/-- Python's `s.lower() in ['y', 'yes']`. -/
def answersYes (s : String) : Bool :=
  pyLower s == "y" || pyLower s == "yes"

/-- The container-removal loop of `_cmd_uninstall` (lines 426-437): per
container, stop if running then remove with `force=True`; any exception is
printed and the loop continues with the next container. -/
def removeUsingLoop (e : Engine) : List String → Engine × List CallEv
  | [] => (e, [])
  | n :: rest =>
    match get_container e n with
    | none =>
      let p := removeUsingLoop e rest
      (p.1, CallEv.getC n none :: p.2)
    | some c =>
      if c.status == "running" then
        match stop_container e c with
        | .error _ =>
          let p := removeUsingLoop e rest
          (p.1, CallEv.getC n (some c.status) :: CallEv.stopC n :: p.2)
        | .ok _ =>
          match remove_container (stopUpdate e n) c true with
          | .error _ =>
            let p := removeUsingLoop (stopUpdate e n) rest
            (p.1, CallEv.getC n (some c.status) :: CallEv.stopC n ::
              CallEv.removeC n true :: p.2)
          | .ok _ =>
            let p := removeUsingLoop (removeUpdate (stopUpdate e n) n) rest
            (p.1, CallEv.getC n (some c.status) :: CallEv.stopC n ::
              CallEv.removeC n true :: p.2)
      else
        match remove_container e c true with
        | .error _ =>
          let p := removeUsingLoop e rest
          (p.1, CallEv.getC n (some c.status) :: CallEv.removeC n true :: p.2)
        | .ok _ =>
          let p := removeUsingLoop (removeUpdate e n) rest
          (p.1, CallEv.getC n (some c.status) :: CallEv.removeC n true :: p.2)

/-- The final image-removal loop of `_cmd_uninstall` (lines 455-464): every
target is attempted, each failure is printed and counted, the loop is never
aborted.  (`remove_image` consults only the per-reference error table, so the
engine value stays fixed across iterations.) -/
def uninstallRemoveLoop (e : Engine) (force : Bool) :
    List String → Nat → List CallEv × Nat
  | [], errors => ([], errors)
  | img :: rest, errors =>
    match remove_image e img force with
    | .error _ =>
      let p := uninstallRemoveLoop e force rest (errors + 1)
      (CallEv.removeImg img :: p.1, p.2)
    | .ok _ =>
      let p := uninstallRemoveLoop e force rest errors
      (CallEv.removeImg img :: p.1, p.2)

/-- Lines 443-465: the `--force` note, the final confirmation prompt
(default "n" on end-of-input), abort with 0 unless the answer is y/yes,
else run the image-removal loop and return 1 iff any target failed.
`tr` is the call trace accumulated before this point. -/
def uninstallConfirm (e : Engine) (images : List String) (force : Bool)
    (confirm : Prompt) (tr : List CallEv) : List CallEv × Except Failure Int :=
  match promptDefaultNo confirm with
  | .error f => (tr, .error f)
  | .ok ans =>
    if answersYes ans then
      let p := uninstallRemoveLoop e force images 0
      (tr ++ p.1, .ok (if p.2 > 0 then 1 else 0))
    else
      (tr, .ok 0)

/-- `_cmd_uninstall` from line 399 on: scan for containers using the target
images; when some exist, ask whether to remove them (default "n"; declining
aborts with exit 1), removing them on yes; then the final confirmation and
image-removal loop.  `p1` feeds the container prompt, `confirm` the final one. -/
def uninstallPhase (e : Engine) (images : List String) (force : Bool)
    (p1 confirm : Prompt) : List CallEv × Except Failure Int :=
  if (containersToRemove e images).isEmpty then
    uninstallConfirm e images force confirm []
  else
    match promptDefaultNo p1 with
    | .error f => ([], .error f)
    | .ok ans =>
      if answersYes ans then
        uninstallConfirm (removeUsingLoop e (containersToRemove e images)).1 images force
          confirm (removeUsingLoop e (containersToRemove e images)).2
      else
        ([], .ok 1)

/-! ## Claims -/

/-- C1: every kind of the closed domain-error taxonomy is constructed with its
fixed stable exit code — engine-unavailable 2, pull-failed 3 (`ImageNotFound`
likewise 3), container-not-found 4, not-running 5, create-failed 6,
start-failed 7, stop-failed 8, remove-failed 9, image-remove-failed 10 — and
the top-level handler returns a raised error's exit code unmodified. -/
theorem C1_taxonomy_exit_codes :
    (∀ m h, (DockerUnavailable m h).exit_code = 2) ∧
    (∀ i m h, (ImageNotFound i m h).exit_code = 3) ∧
    (∀ i m h, (ImagePullFailed i m h).exit_code = 3) ∧
    (∀ n m, (ContainerNotFound n m).exit_code = 4) ∧
    (∀ n m, (ContainerNotRunning n m).exit_code = 5) ∧
    (∀ n m h, (ContainerCreateFailed n m h).exit_code = 6) ∧
    (∀ n m, (ContainerStartFailed n m).exit_code = 7) ∧
    (∀ n m, (ContainerStopFailed n m).exit_code = 8) ∧
    (∀ n m, (ContainerRemoveFailed n m).exit_code = 9) ∧
    (∀ i m, (ImageRemoveFailed i m).exit_code = 10) ∧
    (∀ e : NihilError, mainExit (.error (.nihil e)) = e.exit_code) := by
  exact ⟨fun _ _ => rfl, fun _ _ _ => rfl, fun _ _ _ => rfl, fun _ _ => rfl,
    fun _ _ => rfl, fun _ _ _ => rfl, fun _ _ => rfl, fun _ _ => rfl,
    fun _ _ => rfl, fun _ _ => rfl, fun _ => rfl⟩

/-- C6: whatever the invocation's outcome and whatever the filesystem does to
the history write, the process exit code is the one computed before the write:
a history-write failure is swallowed and never changes it. -/
theorem C6_history_failure_never_changes_exit
    (outcome : Except Failure Int) (argv : List String) (fs fs' : FsResult)
    (log log' : List String) :
    (mainInvocation outcome argv fs log).1 = (mainInvocation outcome argv fs' log').1 := by
  rfl

/-! ### Concrete engines used as witnesses and counterexamples -/

/-- An engine with nothing in it and every call succeeding. -/
def emptyEngine : Engine :=
  { containers := []
    images := []
    pingError := none
    imageInspectErrors := []
    pullErrors := []
    startErrors := []
    stopErrors := []
    removeErrors := []
    imageRemoveErrors := []
    listContainersError := none
    listImagesError := none }

/-- A stopped nihil container named "a". -/
def containerA : Container :=
  { name := "a"
    status := "exited"
    imageTags := ["nihil-images:latest"]
    imageId := "sha-img-1"
    configImage := "nihil-images:latest"
    privileged := false
    imageBroken := false }

/-- A running nihil container named "b". -/
def containerB : Container :=
  { name := "b"
    status := "running"
    imageTags := ["nihil-images:latest"]
    imageId := "sha-img-1"
    configImage := "nihil-images:latest"
    privileged := true
    imageBroken := false }

/-- C5 counterexample: the history line written for an invocation is the same
whatever that invocation's exit code — `nihil start x` for exit 0 and exit 130
alike — so the appended entry does not record the exit code, contrary to the
claim; with a working filesystem it is still exactly one line per invocation. -/
theorem C5_counterexample :
    log_command ["start", "x"] 0 .ok [] = log_command ["start", "x"] 130 .ok [] ∧
    log_command ["start", "x"] 0 .ok [] = ["nihil start x"] ∧
    (0 : Int) ≠ 130 := by
  refine ⟨rfl, rfl, by decide⟩

/-- C5 (amended): over any sequence of M invocations whose history writes
succeed, the log gains exactly M lines, one per invocation, each the line
`nihil <space-joined raw argv>` — whatever each invocation's outcome; the exit
code is passed to the logger but is not part of the written line. -/
theorem C5_history_one_line_per_invocation
    (invs : List (List String × Except Failure Int × FsResult)) (log : List String)
    (h : ∀ inv ∈ invs, inv.2.2 = FsResult.ok) :
    runSession invs log = log ++ invs.map (fun inv => nihilLine inv.1) ∧
    (runSession invs log).length = log.length + invs.length := by
  have main : runSession invs log = log ++ invs.map (fun inv => nihilLine inv.1) := by
    induction invs generalizing log with
    | nil => simp [runSession]
    | cons inv rest ih =>
      have hfs : inv.2.2 = FsResult.ok := h inv (by simp)
      have step : runSession (inv :: rest) log =
          runSession rest (log ++ [nihilLine inv.1]) := by
        simp [runSession, mainInvocation, log_command, hfs, writeHistory]
      rw [step, ih _ (fun i hi => h i (List.mem_cons_of_mem _ hi))]
      simp
  refine ⟨main, ?_⟩
  rw [main]
  simp

/-- C5 witness: a concrete two-invocation session (one success, one
interrupt) appends exactly its two `nihil <args>` lines. -/
theorem C5_history_witness :
    (∀ inv ∈ ([(["start", "a"], Except.ok (0 : Int), FsResult.ok),
        (["stop", "a"], Except.error Failure.interrupt, FsResult.ok)] :
        List (List String × Except Failure Int × FsResult)), inv.2.2 = FsResult.ok) ∧
    (runSession [(["start", "a"], Except.ok (0 : Int), FsResult.ok),
        (["stop", "a"], Except.error Failure.interrupt, FsResult.ok)] [] =
      [] ++ [(["start", "a"], Except.ok (0 : Int), FsResult.ok),
        (["stop", "a"], Except.error Failure.interrupt, FsResult.ok)].map
          (fun inv => nihilLine inv.1) ∧
      (runSession [(["start", "a"], Except.ok (0 : Int), FsResult.ok),
        (["stop", "a"], Except.error Failure.interrupt, FsResult.ok)] []).length =
        ([] : List String).length + 2) := by
  refine ⟨by decide, C5_history_one_line_per_invocation _ _ (by decide)⟩

/-- C3 counterexample: `exec` on the nonexistent container "demo" prints the
formatted message `Container 'demo' doesn't exist.` but returns exit code 1
(the generic-failure path of the handler), not the container-not-found
taxonomy code 4 the claim states. -/
theorem C3_counterexample :
    cmdExec emptyEngine "demo" [] =
      ([defaultFormatter.errorMsg "Container 'demo' doesn't exist."], 1) ∧
    (1 : Int) ≠ 4 := by
  refine ⟨rfl, by decide⟩

/-- C3 (amended): `exec` on a container that does not exist prints the error
message `Container '<name>' doesn't exist.` to stderr and returns exit code 1
(the handler prints and returns 1 rather than raising `ContainerNotFound`). -/
theorem C3_exec_missing_container (e : Engine) (name : String) (command : List String)
    (h : get_container e name = none) :
    cmdExec e name command =
      ([defaultFormatter.errorMsg ("Container " ++ "'" ++ name ++ "'" ++ " doesn't exist.")],
        1) := by
  simp [cmdExec, h]

/-- C3 witness: the amended statement at the empty engine and name "demo". -/
theorem C3_exec_missing_container_witness :
    cmdExec emptyEngine "demo" [] =
      ([defaultFormatter.errorMsg
        ("Container " ++ "'" ++ "demo" ++ "'" ++ " doesn't exist.")], 1) :=
  C3_exec_missing_container emptyEngine "demo" [] rfl

/-- C4: `doctor` returns 0 whenever the engine is reachable — whatever the
informational runtime checks and the default-image check produced, a failed
pull included — and returns the caught error's exit code (the
engine-unavailable code 2) exactly when connecting to the engine failed. -/
theorem C4_doctor_exit_policy (r : RuntimeInfo) (e : Engine) :
    (managerInit e = .ok () → (doctorRun r e).2 = 0) ∧
    (∀ err, managerInit e = .error err →
      (doctorRun r e).2 = err.exit_code ∧ err.exit_code = 2) := by
  constructor
  · intro h
    simp [doctorRun, h]
  · intro err h
    have hcode : err.exit_code = 2 := by
      unfold managerInit at h
      cases hp : e.pingError with
      | none => rw [hp] at h; cases h
      | some m =>
        rw [hp] at h
        cases h
        rfl
    refine ⟨?_, hcode⟩
    simp [doctorRun, h]

/-- C9: when the engine's listing calls raise an `APIError`, `list_containers`
and `list_images` swallow it — printing a message to stderr and returning the
empty list — and the `info` command, which only lists, still returns 0. -/
theorem C9_listing_failures_swallowed (e : Engine) (allFlag : Bool) (mc mi : String)
    (hc : e.listContainersError = some mc) (hi : e.listImagesError = some mi) :
    list_containers e allFlag = ([], ["Error retrieving containers: " ++ mc]) ∧
    list_images e = ([], ["Error retrieving images: " ++ mi]) ∧
    cmdInfo e = 0 := by
  refine ⟨by simp [list_containers, hc], by simp [list_images, hi], rfl⟩

/-- An engine whose two listing calls both raise. -/
def listFailEngine : Engine :=
  { emptyEngine with
    containers := [containerA]
    listContainersError := some "boom"
    listImagesError := some "crash" }

/-- C9 witness: the statement at a concrete failing engine. -/
theorem C9_listing_failures_witness :
    list_containers listFailEngine true = ([], ["Error retrieving containers: boom"]) ∧
    list_images listFailEngine = ([], ["Error retrieving images: crash"]) ∧
    cmdInfo listFailEngine = 0 :=
  C9_listing_failures_swallowed listFailEngine true "boom" "crash" rfl rfl

/-- C8: every container returned by `list_containers` has an image tag
containing "nihil", every image returned by `list_images` has a tag containing
"nihil", and an entity with no matching tag (in particular one with neither a
matching tag nor a matching configured image reference) is excluded. -/
theorem C8_listing_marker_filter (e : Engine) (allFlag : Bool) :
    (∀ c ∈ (list_containers e allFlag).1,
      c.imageTags.any (fun tag => strContains tag "nihil") = true) ∧
    (∀ c ∈ e.containers,
      (∀ tag ∈ c.imageTags, strContains tag "nihil" = false) →
      strContains c.configImage "nihil" = false →
      c ∉ (list_containers e allFlag).1) ∧
    (∀ i ∈ (list_images e).1,
      i.tags.any (fun tag => strContains tag "nihil") = true) ∧
    (∀ i ∈ e.images,
      (∀ tag ∈ i.tags, strContains tag "nihil" = false) →
      i ∉ (list_images e).1) := by
  have hc : ∀ c ∈ (list_containers e allFlag).1,
      c.imageTags.any (fun tag => strContains tag "nihil") = true := by
    intro c hcmem
    unfold list_containers at hcmem
    cases hl : e.listContainersError with
    | some m => rw [hl] at hcmem; simp at hcmem
    | none =>
      rw [hl] at hcmem
      simp only [List.mem_filter, Bool.and_eq_true] at hcmem
      exact hcmem.2.2
  have hi : ∀ i ∈ (list_images e).1,
      i.tags.any (fun tag => strContains tag "nihil") = true := by
    intro i himem
    unfold list_images at himem
    cases hl : e.listImagesError with
    | some m => rw [hl] at himem; simp at himem
    | none =>
      rw [hl] at himem
      simp only [List.mem_filter, Bool.and_eq_true] at himem
      exact himem.2.2
  refine ⟨hc, ?_, hi, ?_⟩
  · intro c _ hnone _ hmem
    have := hc c hmem
    rw [List.any_eq_true] at this
    obtain ⟨tag, htag, hcontains⟩ := this
    rw [hnone tag htag] at hcontains
    cases hcontains
  · intro i _ hnone hmem
    have := hi i hmem
    rw [List.any_eq_true] at this
    obtain ⟨tag, htag, hcontains⟩ := this
    rw [hnone tag htag] at hcontains
    cases hcontains

/-- Is this trace event a destructive image removal? -/
def isRemoveImg : CallEv → Bool
  | .removeImg _ => true
  | _ => false

/-- The container-removal loop of `_cmd_uninstall` never removes an image. -/
theorem removeUsingLoop_no_removeImg :
    ∀ (names : List String) (e : Engine),
      ((removeUsingLoop e names).2).all (fun ev => !isRemoveImg ev) = true := by
  intro names
  induction names with
  | nil => intro e; rfl
  | cons n rest ih =>
    intro e
    show ((removeUsingLoop e (n :: rest)).2).all (fun ev => !isRemoveImg ev) = true
    unfold removeUsingLoop
    cases get_container e n with
    | none => simpa [isRemoveImg] using ih e
    | some c =>
      by_cases hs : c.status == "running"
      · simp only [hs, if_true]
        cases stop_container e c with
        | error err => simpa [isRemoveImg] using ih e
        | ok v =>
          cases remove_container (stopUpdate e n) c true with
          | error err => simpa [isRemoveImg] using ih (stopUpdate e n)
          | ok v₂ => simpa [isRemoveImg] using ih (removeUpdate (stopUpdate e n) n)
      · simp only [hs, if_false]
        cases remove_container e c true with
        | error err => simpa [isRemoveImg] using ih e
        | ok v => simpa [isRemoveImg] using ih (removeUpdate e n)

/-- The default "n" answer that an `EOFError` produces declines the prompt. -/
theorem answersYes_n : answersYes "n" = false := by decide

/-- End-of-input at the final confirmation: answer defaults to "n", abort with 0. -/
theorem uninstallConfirm_endOfInput (e : Engine) (images : List String) (force : Bool)
    (tr : List CallEv) :
    uninstallConfirm e images force .endOfInput tr = (tr, .ok 0) := by
  unfold uninstallConfirm
  simp [promptDefaultNo, answersYes_n]

/-- An interrupt at the final confirmation propagates. -/
theorem uninstallConfirm_interrupt (e : Engine) (images : List String) (force : Bool)
    (tr : List CallEv) :
    uninstallConfirm e images force .interrupt tr = (tr, .error .interrupt) := by
  rfl

/-- C7 counterexample: with no container using the target image, an interrupt
at the destructive-removal confirmation prompt does not default the answer to
"no" — the `KeyboardInterrupt` propagates, and the invocation exits 130 through
the top-level handler instead of taking the "Aborted." exit-0 path that
end-of-input takes.  (No image is removed either way.) -/
theorem C7_counterexample :
    uninstallPhase emptyEngine ["nihil-images:latest"] false (.answer "y") .interrupt =
      ([], .error .interrupt) ∧
    uninstallPhase emptyEngine ["nihil-images:latest"] false (.answer "y") .endOfInput =
      ([], .ok 0) ∧
    mainExit (.error .interrupt) = 130 ∧ ((130 : Int) ≠ 0) := by
  refine ⟨rfl, ?_, rfl, by decide⟩
  show uninstallConfirm emptyEngine ["nihil-images:latest"] false .endOfInput [] = ([], .ok 0)
  exact uninstallConfirm_endOfInput _ _ _ _

/-- C7 (amended): at the destructive image-removal confirmation prompt,
end-of-input defaults the answer to "no" and the command aborts with exit 0;
an interrupt instead propagates the `KeyboardInterrupt` (exit 130 at the
top-level handler); in both cases no image removal is performed, whatever the
earlier container-prompt input did. -/
theorem C7_confirm_default_no (e : Engine) (images : List String) (force : Bool)
    (p1 : Prompt) :
    ((uninstallPhase e images force p1 .endOfInput).1.all
      (fun ev => !isRemoveImg ev) = true) ∧
    ((uninstallPhase e images force p1 .interrupt).1.all
      (fun ev => !isRemoveImg ev) = true) ∧
    (containersToRemove e images = [] →
      uninstallPhase e images force p1 .endOfInput = ([], .ok 0) ∧
      uninstallPhase e images force p1 .interrupt = ([], .error .interrupt)) := by
  have hrem := removeUsingLoop_no_removeImg (containersToRemove e images) e
  by_cases hd : (containersToRemove e images).isEmpty
  · have h1 : uninstallPhase e images force p1 .endOfInput = ([], .ok 0) := by
      unfold uninstallPhase
      rw [if_pos hd]
      exact uninstallConfirm_endOfInput e images force []
    have h2 : uninstallPhase e images force p1 .interrupt = ([], .error .interrupt) := by
      unfold uninstallPhase
      rw [if_pos hd]
      exact uninstallConfirm_interrupt e images force []
    rw [h1, h2]
    exact ⟨rfl, rfl, fun _ => ⟨rfl, rfl⟩⟩
  · have hctr : ¬ containersToRemove e images = [] := by
      intro hc
      rw [hc] at hd
      exact hd rfl
    cases p1 with
    | answer s =>
      by_cases hy : answersYes s
      · have h1 : uninstallPhase e images force (.answer s) .endOfInput =
            ((removeUsingLoop e (containersToRemove e images)).2, .ok 0) := by
          unfold uninstallPhase
          rw [if_neg hd]
          simp only [promptDefaultNo]
          rw [if_pos hy]
          exact uninstallConfirm_endOfInput _ _ _ _
        have h2 : uninstallPhase e images force (.answer s) .interrupt =
            ((removeUsingLoop e (containersToRemove e images)).2, .error .interrupt) := by
          unfold uninstallPhase
          rw [if_neg hd]
          simp only [promptDefaultNo]
          rw [if_pos hy]
          exact uninstallConfirm_interrupt _ _ _ _
        rw [h1, h2]
        exact ⟨hrem, hrem, fun hc => absurd hc hctr⟩
      · have h1 : uninstallPhase e images force (.answer s) .endOfInput = ([], .ok 1) := by
          unfold uninstallPhase
          rw [if_neg hd]
          simp only [promptDefaultNo]
          rw [if_neg hy]
        have h2 : uninstallPhase e images force (.answer s) .interrupt = ([], .ok 1) := by
          unfold uninstallPhase
          rw [if_neg hd]
          simp only [promptDefaultNo]
          rw [if_neg hy]
        rw [h1, h2]
        exact ⟨rfl, rfl, fun hc => absurd hc hctr⟩
    | endOfInput =>
      have h1 : uninstallPhase e images force .endOfInput .endOfInput = ([], .ok 1) := by
        unfold uninstallPhase
        rw [if_neg hd]
        simp only [promptDefaultNo, answersYes_n, Bool.false_eq_true, if_false]
      have h2 : uninstallPhase e images force .endOfInput .interrupt = ([], .ok 1) := by
        unfold uninstallPhase
        rw [if_neg hd]
        simp only [promptDefaultNo, answersYes_n, Bool.false_eq_true, if_false]
      rw [h1, h2]
      exact ⟨rfl, rfl, fun hc => absurd hc hctr⟩
    | interrupt =>
      have h1 : uninstallPhase e images force .interrupt .endOfInput =
          ([], .error .interrupt) := by
        unfold uninstallPhase
        rw [if_neg hd]
        rfl
      have h2 : uninstallPhase e images force .interrupt .interrupt =
          ([], .error .interrupt) := by
        unfold uninstallPhase
        rw [if_neg hd]
        rfl
      rw [h1, h2]
      exact ⟨rfl, rfl, fun hc => absurd hc hctr⟩

/-! ### Ordering of stop and remove in the remove command (C10) -/

/-- Trace checker: walking the trace while tracking which containers were last
observed "running" (and not stopped since), every `removeC` must hit a
container not in that set. -/
def removesOk : List CallEv → List String → Bool
  | [], _ => true
  | .getC n obs :: tr, s =>
    removesOk tr (if obs == some "running" then n :: s else s.filter (fun m => m != n))
  | .stopC n :: tr, s => removesOk tr (s.filter (fun m => m != n))
  | .removeC n _ :: tr, s => !(s.contains n) && removesOk tr s
  | .removeImg _ :: tr, s => removesOk tr s

/-- A name never survives a filter that drops it. -/
theorem contains_filter_ne_self (s : List String) (n : String) :
    (s.filter (fun m => m != n)).contains n = false := by
  induction s with
  | nil => rfl
  | cons m rest ih =>
    rw [List.filter_cons]
    by_cases hm : (m != n) = true
    · rw [if_pos hm]
      have hmn : m ≠ n := by simpa using hm
      have hnm : (n == m) = false := beq_eq_false_iff_ne.mpr (Ne.symm hmn)
      show (n == m || (rest.filter (fun m => m != n)).contains n) = false
      rw [hnm, ih]
      rfl
    · rw [if_neg hm]
      exact ih

/-- `Option`'s `==` on two `some`s is `==` on the contents. -/
theorem beq_some_some (a b : String) : ((some a : Option String) == some b) = (a == b) :=
  rfl

/-- The remove-command loop only ever removes a container whose most recent
observation in the trace is not "running", or that it has stopped since: the
checker accepts its trace from any starting set. -/
theorem cmdRemoveLoop_removesOk :
    ∀ (names : List String) (e : Engine) (force : Bool) (errors : Nat) (s : List String),
      removesOk (cmdRemoveLoop e force names errors).1 s = true := by
  intro names
  induction names with
  | nil => intro e force errors s; rfl
  | cons n rest ih =>
    intro e force errors s
    unfold cmdRemoveLoop
    split
    · -- get_container e n = none
      simp only [removesOk]
      exact ih e force (errors + 1) _
    · -- get_container e n = some c
      rename_i c _
      split
      · -- c.status == "running"
        rename_i hs
        split
        · -- stop_container raises
          simp only [removesOk, beq_some_some, hs, if_true]
        · split
          · -- remove_container raises after a successful stop
            simp only [removesOk, beq_some_some, hs, if_true, List.filter_cons,
              bne_self_eq_false, Bool.false_eq_true, if_false,
              contains_filter_ne_self, Bool.not_false, Bool.true_and]
          · -- stop and remove both succeed
            simp only [removesOk, beq_some_some, hs, if_true, List.filter_cons,
              bne_self_eq_false, Bool.false_eq_true, if_false,
              contains_filter_ne_self, Bool.not_false, Bool.true_and]
            exact ih _ force errors _
      · -- status observed not running
        rename_i hs
        have hs' : (c.status == "running") = false := by simpa using hs
        split
        · -- remove_container raises
          simp only [removesOk, beq_some_some, hs', Bool.false_eq_true, if_false,
            contains_filter_ne_self, Bool.not_false, Bool.true_and]
        · -- remove succeeds
          simp only [removesOk, beq_some_some, hs', Bool.false_eq_true, if_false,
            contains_filter_ne_self, Bool.not_false, Bool.true_and]
          exact ih _ force errors _

/-- In the remove-command loop, a target observed "running" always has its
stop call in the trace. -/
theorem cmdRemoveLoop_running_gets_stop :
    ∀ (names : List String) (e : Engine) (force : Bool) (errors : Nat) (n : String),
      CallEv.getC n (some "running") ∈ (cmdRemoveLoop e force names errors).1 →
      CallEv.stopC n ∈ (cmdRemoveLoop e force names errors).1 := by
  intro names
  induction names with
  | nil =>
    intro e force errors n h
    exact absurd h (List.not_mem_nil _)
  | cons m rest ih =>
    intro e force errors n h
    unfold cmdRemoveLoop at h ⊢
    revert h
    split
    · -- target missing
      intro h
      rcases List.mem_cons.1 h with h | h
      · simp at h
      · exact List.mem_cons_of_mem _ (ih e force (errors + 1) n h)
    · rename_i c _
      split
      · -- observed running
        rename_i hs
        split
        · -- stop raises: trace ends [getC, stopC]
          intro h
          rcases List.mem_cons.1 h with h | h
          · simp only [CallEv.getC.injEq, Option.some.injEq] at h
            rw [h.1]
            exact List.mem_cons_of_mem _ (List.mem_cons_self _ _)
          · rcases List.mem_cons.1 h with h | h
            · simp at h
            · exact absurd h (List.not_mem_nil _)
        · split
          · -- remove raises: trace ends [getC, stopC, removeC]
            intro h
            rcases List.mem_cons.1 h with h | h
            · simp only [CallEv.getC.injEq, Option.some.injEq] at h
              rw [h.1]
              exact List.mem_cons_of_mem _ (List.mem_cons_self _ _)
            · rcases List.mem_cons.1 h with h | h
              · simp at h
              · rcases List.mem_cons.1 h with h | h
                · simp at h
                · exact absurd h (List.not_mem_nil _)
          · -- stop and remove succeed, loop continues
            intro h
            rcases List.mem_cons.1 h with h | h
            · simp only [CallEv.getC.injEq, Option.some.injEq] at h
              rw [h.1]
              exact List.mem_cons_of_mem _ (List.mem_cons_self _ _)
            · rcases List.mem_cons.1 h with h | h
              · simp at h
              · rcases List.mem_cons.1 h with h | h
                · simp at h
                · exact List.mem_cons_of_mem _ (List.mem_cons_of_mem _
                    (List.mem_cons_of_mem _ (ih _ force errors n h)))
      · -- observed not running: the head observation cannot be "running"
        rename_i hs
        have hs' : c.status ≠ "running" := by
          intro hEq
          exact hs (by rw [hEq]; exact beq_self_eq_true _)
        split
        · -- remove raises: trace ends [getC, removeC]
          intro h
          rcases List.mem_cons.1 h with h | h
          · simp only [CallEv.getC.injEq, Option.some.injEq] at h
            exact absurd h.2.symm hs'
          · rcases List.mem_cons.1 h with h | h
            · simp at h
            · exact absurd h (List.not_mem_nil _)
        · -- remove succeeds, loop continues
          intro h
          rcases List.mem_cons.1 h with h | h
          · simp only [CallEv.getC.injEq, Option.some.injEq] at h
            exact absurd h.2.symm hs'
          · rcases List.mem_cons.1 h with h | h
            · simp at h
            · exact List.mem_cons_of_mem _ (List.mem_cons_of_mem _ (ih _ force errors n h))

/-- C10: in the remove command, a trace-checker accepting run shows
`remove_container` is never invoked on a container whose most recent
observation is "running" without an intervening stop — whatever `--force` —
and every target observed "running" has `stop_container` invoked (hence
before any `remove_container` on it, which the checker enforces). -/
theorem C10_stop_before_remove (e : Engine) (force : Bool) (names : List String) :
    removesOk (cmdRemove e force names).1 [] = true ∧
    ∀ n, CallEv.getC n (some "running") ∈ (cmdRemove e force names).1 →
      CallEv.stopC n ∈ (cmdRemove e force names).1 :=
  ⟨cmdRemoveLoop_removesOk names e force 0 [],
    fun n h => cmdRemoveLoop_running_gets_stop names e force 0 n h⟩

/-! ### Bulk processing in remove and uninstall (C2) -/

/-- Stopping one container changes no container's presence by name. -/
theorem find?_name_map_stop (l : List Container) (n nb : String) :
    ((l.map (fun c => if c.name == n then { c with status := "exited" } else c)).find?
      (fun c => c.name == nb)).isNone =
    (l.find? (fun c => c.name == nb)).isNone := by
  induction l with
  | nil => rfl
  | cons c rest ih =>
    have hname : ((if c.name == n then { c with status := "exited" } else c) :
        Container).name = c.name := by
      split <;> rfl
    rw [List.map_cons]
    by_cases hb : (c.name == nb) = true
    · simp only [List.find?_cons, hname, hb, if_true]
      rfl
    · simp only [List.find?_cons, hname, hb, Bool.false_eq_true, if_false]
      exact ih

/-- Removing the container named `n` does not change lookups of other names. -/
theorem find?_name_filter_ne (l : List Container) (n nb : String) (h : nb ≠ n) :
    (l.filter (fun c => c.name != n)).find? (fun c => c.name == nb) =
      l.find? (fun c => c.name == nb) := by
  induction l with
  | nil => rfl
  | cons c rest ih =>
    rw [List.filter_cons]
    by_cases hk : (c.name != n) = true
    · rw [if_pos hk]
      by_cases hb : (c.name == nb) = true
      · simp only [List.find?_cons, hb, if_true]
      · simp only [List.find?_cons, hb, Bool.false_eq_true, if_false]
        exact ih
    · rw [if_neg hk]
      have hcn : c.name = n := by simpa using hk
      have hb : (c.name == nb) = false := by
        rw [hcn]
        exact beq_eq_false_iff_ne.mpr (Ne.symm h)
      simp only [List.find?_cons, hb, Bool.false_eq_true, if_false]
      exact ih

/-- After stopping and removing container `n`, any other name's presence is
unchanged. -/
theorem get_container_after_stop_remove (e : Engine) (n nb : String) (h : nb ≠ n) :
    (get_container (removeUpdate (stopUpdate e n) n) nb).isNone =
      (get_container e nb).isNone := by
  show ((((e.containers.map _).filter _).find? _).isNone = _)
  rw [find?_name_filter_ne _ n nb h]
  exact find?_name_map_stop _ n nb

/-- After removing container `n`, any other name's presence is unchanged. -/
theorem get_container_after_remove (e : Engine) (n nb : String) (h : nb ≠ n) :
    get_container (removeUpdate e n) nb = get_container e nb :=
  find?_name_filter_ne _ n nb h

/-- `stop_container` succeeds when the engine has no stop error for the name. -/
theorem stop_container_ok (e : Engine) (c : Container)
    (h : (e.stopErrors.lookup c.name : Option String) = none) :
    stop_container e c = .ok true := by
  unfold stop_container
  rw [h]

/-- `remove_container` succeeds when the engine has no remove error for the name. -/
theorem remove_container_ok (e : Engine) (c : Container) (force : Bool)
    (h : (e.removeErrors.lookup c.name : Option String) = none) :
    remove_container e c force = .ok true := by
  unfold remove_container
  rw [h]

/-- Step equation of the remove loop: missing target. -/
theorem cmdRemoveLoop_cons_none (e : Engine) (force : Bool) (m : String)
    (rest : List String) (errors : Nat) (hg : get_container e m = none) :
    cmdRemoveLoop e force (m :: rest) errors =
      (CallEv.getC m none :: (cmdRemoveLoop e force rest (errors + 1)).1,
        (cmdRemoveLoop e force rest (errors + 1)).2) := by
  simp only [cmdRemoveLoop, hg]

/-- Step equation of the remove loop: running target, stop and remove succeed. -/
theorem cmdRemoveLoop_cons_running (e : Engine) (force : Bool) (m : String)
    (rest : List String) (errors : Nat) (c : Container)
    (hg : get_container e m = some c) (hs : (c.status == "running") = true)
    (hstopc : stop_container e c = .ok true)
    (hremc : remove_container (stopUpdate e m) c force = .ok true) :
    cmdRemoveLoop e force (m :: rest) errors =
      (CallEv.getC m (some c.status) :: CallEv.stopC m :: CallEv.removeC m force ::
        (cmdRemoveLoop (removeUpdate (stopUpdate e m) m) force rest errors).1,
        (cmdRemoveLoop (removeUpdate (stopUpdate e m) m) force rest errors).2) := by
  simp only [cmdRemoveLoop, hg, hs, if_true, hstopc, hremc]

/-- Step equation of the remove loop: non-running target, remove succeeds. -/
theorem cmdRemoveLoop_cons_stopped (e : Engine) (force : Bool) (m : String)
    (rest : List String) (errors : Nat) (c : Container)
    (hg : get_container e m = some c) (hs : (c.status == "running") = false)
    (hremc : remove_container e c force = .ok true) :
    cmdRemoveLoop e force (m :: rest) errors =
      (CallEv.getC m (some c.status) :: CallEv.removeC m force ::
        (cmdRemoveLoop (removeUpdate e m) force rest errors).1,
        (cmdRemoveLoop (removeUpdate e m) force rest errors).2) := by
  simp only [cmdRemoveLoop, hg, hs, Bool.false_eq_true, if_false, hremc]

/-- The remove loop under engines whose stop/remove calls succeed for the
listed (distinct) targets: the outcome counts exactly the missing targets, and
every target is looked up. -/
theorem cmdRemoveLoop_all_processed :
    ∀ (names : List String) (e : Engine) (force : Bool) (errors : Nat),
      names.Nodup →
      (∀ n ∈ names, (e.stopErrors.lookup n : Option String) = none) →
      (∀ n ∈ names, (e.removeErrors.lookup n : Option String) = none) →
      ((cmdRemoveLoop e force names errors).2 =
        .ok (if errors + names.countP (fun n => (get_container e n).isNone) > 0
          then 1 else 0)) ∧
      ∀ n ∈ names, ∃ obs, CallEv.getC n obs ∈ (cmdRemoveLoop e force names errors).1 := by
  intro names
  induction names with
  | nil =>
    intro e force errors _ _ _
    refine ⟨by simp [cmdRemoveLoop], by simp⟩
  | cons m rest ih =>
    intro e force errors hnd hstop hrem
    have hm_stop := hstop m (List.mem_cons_self _ _)
    have hm_rem := hrem m (List.mem_cons_self _ _)
    have hnotmem : m ∉ rest := (List.nodup_cons.1 hnd).1
    have hnd' : rest.Nodup := (List.nodup_cons.1 hnd).2
    cases hg : get_container e m with
    | none =>
      rw [cmdRemoveLoop_cons_none e force m rest errors hg]
      have ihr := ih e force (errors + 1) hnd'
        (fun n hn => hstop n (List.mem_cons_of_mem _ hn))
        (fun n hn => hrem n (List.mem_cons_of_mem _ hn))
      constructor
      · rw [ihr.1]
        have hc : (get_container e m).isNone = true := by rw [hg]; rfl
        rw [List.countP_cons]
        simp only [hc, if_true]
        have h1 : errors + 1 + rest.countP (fun n => (get_container e n).isNone) > 0 := by
          omega
        have h2 : errors + (rest.countP (fun n => (get_container e n).isNone) + 1) > 0 := by
          omega
        rw [if_pos h1, if_pos h2]
      · intro n hn
        rcases List.mem_cons.1 hn with h | h
        · exact ⟨none, by rw [h]; exact List.mem_cons_self _ _⟩
        · obtain ⟨obs, hobs⟩ := ihr.2 n h
          exact ⟨obs, List.mem_cons_of_mem _ hobs⟩
    | some c =>
      have hcn : c.name = m := by
        have hg' : e.containers.find? (fun x => x.name == m) = some c := hg
        have h := List.find?_some hg'
        exact eq_of_beq h
      have hcount : ∀ e₂ : Engine,
          (∀ nb ∈ rest, (get_container e₂ nb).isNone = (get_container e nb).isNone) →
          rest.countP (fun n => (get_container e₂ n).isNone) =
            rest.countP (fun n => (get_container e n).isNone) := by
        intro e₂ hsame
        refine List.countP_congr ?_
        intro nb hnb
        rw [hsame nb hnb]
      have hcons_count : (m :: rest).countP (fun n => (get_container e n).isNone) =
          rest.countP (fun n => (get_container e n).isNone) := by
        rw [List.countP_cons]
        have hc : (get_container e m).isNone = false := by rw [hg]; rfl
        simp [hc]
      by_cases hs : (c.status == "running") = true
      · -- stop then remove, both succeeding
        have hstopc : stop_container e c = .ok true :=
          stop_container_ok e c (by rw [hcn]; exact hm_stop)
        have hremc : remove_container (stopUpdate e m) c force = .ok true :=
          remove_container_ok (stopUpdate e m) c force (by rw [hcn]; exact hm_rem)
        rw [cmdRemoveLoop_cons_running e force m rest errors c hg hs hstopc hremc]
        have ihr := ih (removeUpdate (stopUpdate e m) m) force errors hnd'
          (fun n hn => hstop n (List.mem_cons_of_mem _ hn))
          (fun n hn => hrem n (List.mem_cons_of_mem _ hn))
        constructor
        · rw [ihr.1, hcount (removeUpdate (stopUpdate e m) m)
            (fun nb hnb => get_container_after_stop_remove e m nb
              (fun hEq => hnotmem (hEq ▸ hnb))), hcons_count]
        · intro n hn
          rcases List.mem_cons.1 hn with h | h
          · exact ⟨some c.status, by rw [h]; exact List.mem_cons_self _ _⟩
          · obtain ⟨obs, hobs⟩ := ihr.2 n h
            exact ⟨obs, List.mem_cons_of_mem _ (List.mem_cons_of_mem _
              (List.mem_cons_of_mem _ hobs))⟩
      · -- observed stopped: remove directly
        have hs' : (c.status == "running") = false := by simpa using hs
        have hremc : remove_container e c force = .ok true :=
          remove_container_ok e c force (by rw [hcn]; exact hm_rem)
        rw [cmdRemoveLoop_cons_stopped e force m rest errors c hg hs' hremc]
        have ihr := ih (removeUpdate e m) force errors hnd'
          (fun n hn => hstop n (List.mem_cons_of_mem _ hn))
          (fun n hn => hrem n (List.mem_cons_of_mem _ hn))
        constructor
        · rw [ihr.1, hcount (removeUpdate e m)
            (fun nb hnb => by
              rw [get_container_after_remove e m nb (fun hEq => hnotmem (hEq ▸ hnb))]),
            hcons_count]
        · intro n hn
          rcases List.mem_cons.1 hn with h | h
          · exact ⟨some c.status, by rw [h]; exact List.mem_cons_self _ _⟩
          · obtain ⟨obs, hobs⟩ := ihr.2 n h
            exact ⟨obs, List.mem_cons_of_mem _ (List.mem_cons_of_mem _ hobs)⟩

/-- The final image-removal loop of uninstall attempts every target and counts
exactly the failing ones. -/
theorem uninstallRemoveLoop_spec :
    ∀ (imgs : List String) (e : Engine) (force : Bool) (errors : Nat),
      (uninstallRemoveLoop e force imgs errors).1 = imgs.map CallEv.removeImg ∧
      (uninstallRemoveLoop e force imgs errors).2 =
        errors + imgs.countP (fun i => (e.imageRemoveErrors.lookup i).isSome) := by
  intro imgs
  induction imgs with
  | nil => intro e force errors; exact ⟨rfl, by simp [uninstallRemoveLoop]⟩
  | cons i rest ih =>
    intro e force errors
    cases hl : (e.imageRemoveErrors.lookup i : Option String) with
    | some msg =>
      have hri : remove_image e i force = .error (ImageRemoveFailed i (some msg)) := by
        unfold remove_image
        rw [hl]
      have step : uninstallRemoveLoop e force (i :: rest) errors =
          (CallEv.removeImg i :: (uninstallRemoveLoop e force rest (errors + 1)).1,
            (uninstallRemoveLoop e force rest (errors + 1)).2) := by
        simp only [uninstallRemoveLoop, hri]
      rw [step]
      constructor
      · rw [(ih e force (errors + 1)).1, List.map_cons]
      · rw [(ih e force (errors + 1)).2, List.countP_cons]
        have hsome : (e.imageRemoveErrors.lookup i).isSome = true := by rw [hl]; rfl
        simp only [hsome, if_true]
        omega
    | none =>
      have hri : remove_image e i force = .ok true := by
        unfold remove_image
        rw [hl]
      have step : uninstallRemoveLoop e force (i :: rest) errors =
          (CallEv.removeImg i :: (uninstallRemoveLoop e force rest errors).1,
            (uninstallRemoveLoop e force rest errors).2) := by
        simp only [uninstallRemoveLoop, hri]
      rw [step]
      constructor
      · rw [(ih e force errors).1, List.map_cons]
      · rw [(ih e force errors).2, List.countP_cons]
        have hnone : (e.imageRemoveErrors.lookup i).isSome = false := by rw [hl]; rfl
        simp [hnone]

/-- An engine holding the stopped container "a" whose removal call raises. -/
def remFailEngine : Engine :=
  { emptyEngine with containers := [containerA], removeErrors := [("a", "boom")] }

/-- An engine holding the stopped container "a" and the running container "b",
with every call succeeding. -/
def engineAB : Engine :=
  { emptyEngine with containers := [containerA, containerB] }

/-- C2 counterexample: `remove` over the two targets "a" and "b", where "a"
exists (stopped) but its engine-side removal raises: the loop aborts with the
raised `ContainerRemoveFailed` — the trace shows target "b" is never looked
up — and the process exits 9, not the claimed 1 (or 0). -/
theorem C2_counterexample :
    cmdRemove remFailEngine false ["a", "b"] =
      ([CallEv.getC "a" (some "exited"), CallEv.removeC "a" false],
        .error (ContainerRemoveFailed "a" (some "Erreur remove: boom"))) ∧
    mainExit (.error (.nihil (ContainerRemoveFailed "a" (some "Erreur remove: boom")))) = 9 ∧
    ((9 : Int) ≠ 1) ∧ ((9 : Int) ≠ 0) := by
  refine ⟨rfl, rfl, by decide, by decide⟩

/-- C2 (amended): in `remove`, a missing target is counted and the loop
continues, every (distinct) target is looked up, and the exit code is 0 iff no
target was missing — provided no engine stop/remove call fails; an engine
failure instead raises the typed error and aborts the loop (see the
counterexample).  In `uninstall`'s image-removal loop every failure of any
kind is caught and counted, all targets are attempted, and the command
returns 1 iff at least one failed. -/
theorem C2_bulk_processing (e : Engine) (force : Bool) (names : List String)
    (hnd : names.Nodup)
    (hstop : ∀ n ∈ names, (e.stopErrors.lookup n : Option String) = none)
    (hrem : ∀ n ∈ names, (e.removeErrors.lookup n : Option String) = none) :
    ((cmdRemove e force names).2 =
      .ok (if names.countP (fun n => (get_container e n).isNone) > 0 then 1 else 0)) ∧
    (∀ n ∈ names, ∃ obs, CallEv.getC n obs ∈ (cmdRemove e force names).1) ∧
    (∀ (e₂ : Engine) (force₂ : Bool) (imgs : List String),
      uninstallConfirm e₂ imgs force₂ (.answer "y") [] =
        (imgs.map CallEv.removeImg,
          .ok (if imgs.countP (fun i => (e₂.imageRemoveErrors.lookup i).isSome) > 0
            then 1 else 0))) := by
  have hmain := cmdRemoveLoop_all_processed names e force 0 hnd hstop hrem
  refine ⟨?_, hmain.2, ?_⟩
  · unfold cmdRemove
    rw [hmain.1]
    simp
  · intro e₂ force₂ imgs
    have hy : answersYes "y" = true := by decide
    have hspec := uninstallRemoveLoop_spec imgs e₂ force₂ 0
    unfold uninstallConfirm
    simp only [promptDefaultNo, hy, if_true, hspec.1, hspec.2, Nat.zero_add,
      List.nil_append]

/-- C2 witness: two existing containers (one running) and one missing target;
the remove loop looks up all three and exits 1; the uninstall loop over two
images, one failing, attempts both and exits 1. -/
theorem C2_bulk_processing_witness :
    ((cmdRemove engineAB false ["a", "b", "zzz"]).2 =
      .ok (if (["a", "b", "zzz"].countP (fun n => (get_container engineAB n).isNone)) > 0
        then 1 else 0)) ∧
    (∀ n ∈ ["a", "b", "zzz"], ∃ obs, CallEv.getC n obs ∈
      (cmdRemove engineAB false ["a", "b", "zzz"]).1) ∧
    (∀ (e₂ : Engine) (force₂ : Bool) (imgs : List String),
      uninstallConfirm e₂ imgs force₂ (.answer "y") [] =
        (imgs.map CallEv.removeImg,
          .ok (if imgs.countP (fun i => (e₂.imageRemoveErrors.lookup i).isSome) > 0
            then 1 else 0))) :=
  C2_bulk_processing engineAB false ["a", "b", "zzz"] (by decide) (by decide) (by decide)

end Nihil
